import Mathlib

/-!
Shallow embedding of the fips-validator repository (Go) in Lean 4.

Embedded code:
- pkg/elfinfo/elf.go          : the ElfInfo record produced by ReadFile.
- internal/validation/openssl.go : ValidateBinary, usesCrypto,
  validateNotStaticallyLinked, validateCgoEnabled, validateCgoInit,
  validateGoSymbols, validateGoTagsAndExperiment, ValidateOpenSSL,
  findCryptoLibs, and the requiredSymbolsForGoVersions table.

Modelling conventions:
- Go slices become Lean lists; elf.SectionIndex (a uint16 section header
  index) becomes Nat; Go errors become String reasons.
- File system and process effects are passed in explicitly: ValidateBinary
  takes the results of elfinfo.ReadFile and buildinfo.ReadFile as
  Except-valued arguments; the library scan takes the per-directory state
  and the per-library nm invocation result as functions.
- The Masterminds semver/v3 NewVersion parser and the single ">= 1.23"
  constraint of the requiredSymbolsForGoVersions table are embedded
  directly (lenient parse: optional leading v, one to three numeric parts,
  optional -prerelease and +metadata, anchored), with the library error
  strings "Invalid Semantic Version" and "Version segment starts with 0".
- Printed terminal output is represented by the BinaryOutcome constructors;
  the Go functions return a bool, recovered by BinaryOutcome.toBool.
-/

/-- A single quote character, used inside embedded Go message strings. -/
def sqc : String := "\x27"

/-- Character-list segment containment: does the second list contain the
first as a contiguous segment.  This is the semantics of Go
strings.Contains / bytes.Contains. -/
def hasSeg (pat : List Char) : List Char → Bool
  | [] => pat.isEmpty
  | c :: t => pat.isPrefixOf (c :: t) || hasSeg pat t

/-- Go strings.Contains (s, sub). -/
def containsSub (s sub : String) : Bool := hasSeg sub.toList s.toList

/-- Go strings.HasPrefix (s, p). -/
def hasPre (p s : String) : Bool := p.toList.isPrefixOf s.toList

/-- Split a character list at every occurrence of the separator; like Go
strings.Split with a one-character separator (an empty input yields one
empty field). -/
def splitSepAux (sep : Char) (acc : List Char) : List Char → List (List Char)
  | [] => [acc.reverse]
  | c :: t => if c == sep then acc.reverse :: splitSepAux sep [] t else splitSepAux sep (c :: acc) t

/-- Go strings.Split (s, sep) for a one-character separator. -/
def splitSep (sep : Char) (s : String) : List String :=
  (splitSepAux sep [] s.toList).map String.mk

/-- Render a string the way Go fmt %q renders our plain symbol names. -/
def quoteStr (s : String) : String := "\"" ++ s ++ "\""

/- ---------------------------------------------------------------------
   pkg/elfinfo: the ElfInfo record (elf.go).
--------------------------------------------------------------------- -/

/-- One entry of the ELF symbol table as kept in ElfInfo.Symbols: the name
and the raw section header index (elf.ElfSymbol.Section). -/
structure ElfSymbol where
  Name : String
  Section : Nat
deriving DecidableEq

/-- The record produced by elfinfo.ReadFile (elf.go): classification flags
plus the section-name table and the symbol table. -/
structure ElfInfo where
  IsElf : Bool
  IsStatic : Bool
  Sections : List String
  Symbols : List ElfSymbol
deriving DecidableEq

/-- elf.SHN_LORESERVE, the lower bound of the reserved section header
index range (0xff00).  SHN_ABS = 0xfff1 and SHN_COMMON = 0xfff2 lie in the
range; SHN_UNDEF = 0 does not. -/
def SHN_LORESERVE : Nat := 0xff00

/-- The guarded symbol-to-section lookup performed at the top of the scan
loops in usesCrypto, validateCgoInit and validateGoSymbols (openssl.go):
a symbol whose section index is at least SHN_LORESERVE or at least the
section count is skipped; otherwise Sections is indexed. -/
def sectionLookup (sections : List String) (sym : ElfSymbol) : Option String :=
  if SHN_LORESERVE ≤ sym.Section ∨ sections.length ≤ sym.Section then none
  else sections.get? sym.Section

/-- One iteration of a symbol scan loop: skip the symbol when the section
lookup is guarded away, otherwise apply the loop body to the owning
section's name. -/
def ownedHit (sections : List String) (g : ElfSymbol → String → Bool) (sym : ElfSymbol) : Bool :=
  match sectionLookup sections sym with
  | none => false
  | some sec => g sym sec

/-- Scan the symbol table of an image with a per-symbol loop body,
mirroring the for-loops over info.Symbols in openssl.go. -/
def symAny (info : ElfInfo) (g : ElfSymbol → String → Bool) : Bool :=
  info.Symbols.any (ownedHit info.Sections g)

/- ---------------------------------------------------------------------
   internal/validation/openssl.go: per-binary checks.
--------------------------------------------------------------------- -/

/-- Loop body of usesCrypto: a symbol counts when its name contains
"crypto" and its owning section is not in the { ".bss" } denylist. -/
def cryptoHitBody (sym : ElfSymbol) (sec : String) : Bool :=
  containsSub sym.Name "crypto" && !(([".bss"] : List String).contains sec)

/-- usesCrypto (openssl.go): does any symbol with a resolvable owning
section outside ".bss" have "crypto" in its name. -/
def usesCrypto (info : ElfInfo) : Bool :=
  symAny info cryptoHitBody

/-- validateNotStaticallyLinked (openssl.go). -/
def validateNotStaticallyLinked (info : ElfInfo) : List String :=
  if info.IsStatic then ["statically linked"] else []

/-- One build setting key/value pair (debug/buildinfo BuildSetting). -/
structure BuildSetting where
  Key : String
  Value : String
deriving DecidableEq

/-- The embedded Go build metadata used by the validator: the toolchain
version string and the build settings list (debug/buildinfo BuildInfo). -/
structure BuildInfo where
  GoVersion : String
  Settings : List BuildSetting
deriving DecidableEq

/-- validateCgoEnabled (openssl.go): some setting must be
CGO_ENABLED = "1". -/
def validateCgoEnabled (bi : BuildInfo) : List String :=
  if bi.Settings.any (fun bs => bs.Key == "CGO_ENABLED" && bs.Value == "1") then []
  else ["not compiled with CGO_ENABLED=1"]

/-- Loop body of validateCgoInit: the symbol is one of the two recognized
cgo runtime init names and its owning section is outside ".bss". -/
def cgoInitHitBody (sym : ElfSymbol) (sec : String) : Bool :=
  (sym.Name == "_cgo_init" || sym.Name == "_cgo_topofstack") && !(([".bss"] : List String).contains sec)

/-- validateCgoInit (openssl.go). -/
def validateCgoInit (info : ElfInfo) : List String :=
  if symAny info cgoInitHitBody then [] else ["missing cgo_init symbol"]

/- ---------------------------------------------------------------------
   Masterminds semver/v3: lenient version parse and the ">= 1.23" check.
--------------------------------------------------------------------- -/

/-- A parsed semantic version (Masterminds semver/v3 Version). -/
structure SemVersion where
  major : Nat
  minor : Nat
  patch : Nat
  pre : String
  md : String
deriving DecidableEq

/-- Masterminds Version.String: dotted numeric core, then -prerelease and
+metadata when present. -/
def SemVersion.render (v : SemVersion) : String :=
  toString v.major ++ "." ++ toString v.minor ++ "." ++ toString v.patch ++
    (if v.pre == "" then "" else "-" ++ v.pre) ++
    (if v.md == "" then "" else "+" ++ v.md)

/-- Decimal digit test. -/
def isDigitC (c : Char) : Bool := decide (48 ≤ c.toNat) && decide (c.toNat ≤ 57)

/-- Characters allowed in prerelease and metadata identifiers:
alphanumerics and the hyphen. -/
def isPreChar (c : Char) : Bool :=
  isDigitC c || (decide (65 ≤ c.toNat) && decide (c.toNat ≤ 90)) ||
    (decide (97 ≤ c.toNat) && decide (c.toNat ≤ 122)) || c == '-'

/-- Numeric value of a digit list. -/
def natOfDigits (l : List Char) : Nat :=
  l.foldl (fun a c => a * 10 + (c.toNat - 48)) 0

/-- Parse one ".digits" group, as in the optional minor and patch groups
of the lenient semver regular expression. -/
def parseDotNum : List Char → Option (Nat × List Char)
  | '.' :: t =>
    let d := t.takeWhile isDigitC
    let r := t.dropWhile isDigitC
    if d.isEmpty then none else some (natOfDigits d, r)
  | _ => none

/-- Dot-separated identifier lists are nonempty and drawn from the
prerelease/metadata alphabet. -/
def validParts (parts : List (List Char)) : Bool :=
  parts.all (fun p => !p.isEmpty && p.all isPreChar)

/-- A prerelease identifier that is all digits must not have a leading
zero (Masterminds validatePrerelease). -/
def preNoLeadingZero (parts : List (List Char)) : Bool :=
  parts.all (fun p => !(p.all isDigitC && decide (1 < p.length) && p.head? == some '0'))

/-- Masterminds semver.NewVersion: lenient anchored parse of
v? digits (.digits)? (.digits)? (-prerelease)? (+metadata)? with the
library's own error strings. -/
def newVersion (s : String) : Except String SemVersion :=
  let cs0 := s.toList
  let cs := match cs0 with
    | 'v' :: t => t
    | _ => cs0
  let d1 := cs.takeWhile isDigitC
  let r1 := cs.dropWhile isDigitC
  if d1.isEmpty then .error "Invalid Semantic Version"
  else
    let major := natOfDigits d1
    let mpr : Nat × Nat × List Char :=
      match parseDotNum r1 with
      | none => (0, 0, r1)
      | some (mn, r2) =>
        match parseDotNum r2 with
        | none => (mn, 0, r2)
        | some (pt, r3) => (mn, pt, r3)
    let minor := mpr.1
    let patch := mpr.2.1
    let r3 := mpr.2.2
    let prr : Option (List Char) × List Char :=
      match r3 with
      | '-' :: t => (some (t.takeWhile (fun c => c != '+')), t.dropWhile (fun c => c != '+'))
      | _ => (none, r3)
    let mdr : Option (List Char) × List Char :=
      match prr.2 with
      | '+' :: t => (some t, [])
      | _ => (none, prr.2)
    if !mdr.2.isEmpty then .error "Invalid Semantic Version"
    else
      match prr.1, mdr.1 with
      | pre, md =>
        let preOK := match pre with
          | none => true
          | some body => validParts (splitSepAux '.' [] body)
        let mdOK := match md with
          | none => true
          | some body => validParts (splitSepAux '.' [] body)
        if !(preOK && mdOK) then .error "Invalid Semantic Version"
        else
          let zeroOK := match pre with
            | none => true
            | some body => preNoLeadingZero (splitSepAux '.' [] body)
          if !zeroOK then .error "Version segment starts with 0"
          else
            .ok { major := major, minor := minor, patch := patch,
                  pre := String.mk (pre.getD []), md := String.mk (md.getD []) }

/-- The check performed by the single ">= 1.23" semver constraint of the
requiredSymbolsForGoVersions table: a prerelease version never matches a
release-only constraint, and otherwise the version must compare at least
1.23.0. -/
def versionGe123 (v : SemVersion) : Bool :=
  v.pre == "" && (decide (1 < v.major) || (v.major == 1 && decide (23 ≤ v.minor)))

/-- requiredSymbolsForGoVersions (openssl.go): versioned requirement
table, first match wins.  The one entry pairs the ">= 1.23" constraint
with the golang-fips dlopen helper symbol. -/
def requiredSymbolsForGoVersions : List ((SemVersion → Bool) × List String) :=
  [(versionGe123, ["vendor/github.com/golang-fips/openssl/v2.dlopen"])]

/-- Loop body of the per-required-symbol scan in validateGoSymbols: exact
name match with owning section outside ".bss". -/
def namedHitBody (rs : String) (sym : ElfSymbol) (sec : String) : Bool :=
  sym.Name == rs && !(([".bss"] : List String).contains sec)

/-- validateGoSymbols (openssl.go): select the requirement list by the
first matching version constraint; an empty selection reports the version
as unsupported; otherwise report one reason per missing required symbol. -/
def validateGoSymbols (info : ElfInfo) (goVersion : SemVersion) : List String :=
  let requiredSymbols :=
    match requiredSymbolsForGoVersions.find? (fun req => req.fst goVersion) with
    | some req => req.snd
    | none => []
  if requiredSymbols.isEmpty then
    ["uses Go version " ++ goVersion.render ++ ", which is not yet supported by fips-validator"]
  else
    requiredSymbols.filterMap (fun rs =>
      if symAny info (namedHitBody rs) then none
      else some ("missing required symbol " ++ quoteStr rs))

/-- validateGoTagsAndExperiment (openssl.go): forbidden build tags first,
then for each GOEXPERIMENT setting whose value does not contain
strictfipsruntime, one reason. -/
def validateGoTagsAndExperiment (info : BuildInfo) : List String :=
  let buildTags :=
    match info.Settings.find? (fun bs => bs.Key == "-tags") with
    | some bs => splitSep ',' bs.Value
    | none => []
  let tagErrs :=
    ((["no_openssl"] : List String).filter (fun tag => buildTags.contains tag)).map
      (fun tag => "uses forbidden build tag " ++ tag)
  let expErrs := info.Settings.filterMap (fun bs =>
    if bs.Key == "GOEXPERIMENT" && !containsSub bs.Value "strictfipsruntime" then
      some ("missing required GOEXPERIMENT value " ++ sqc ++ "strictfipsruntime" ++ sqc)
    else none)
  tagErrs ++ expErrs

/- ---------------------------------------------------------------------
   ValidateBinary (openssl.go): composition of the per-binary checks.
--------------------------------------------------------------------- -/

/-- The prefix of the debug/elf error message produced for files starting
with the two bytes 35 33, i.e. a "#!" shebang script. -/
def badMagicScriptPre : String := "bad magic number " ++ sqc ++ "[35 33"

/-- Trim a leading "go" from the toolchain version string
(strings.TrimPrefix in ValidateBinary). -/
def trimGoPre (s : String) : String :=
  if "go".toList.isPrefixOf s.toList then String.mk (s.toList.drop 2) else s

/-- Cut the version string at the first space (the IndexByte slice in
ValidateBinary). -/
def cutSpace (s : String) : String :=
  String.mk (s.toList.takeWhile (fun c => c != ' '))

/-- The Go-binary branch of ValidateBinary: parse the trimmed toolchain
version; parse failure is itself the only reason of this branch, otherwise
run the cgo-enabled, cgo-init, required-symbol and tags/experiment checks
in order. -/
def goBuildChecks (ei : ElfInfo) (bi : BuildInfo) : List String :=
  match newVersion (cutSpace (trimGoPre bi.GoVersion)) with
  | .error e => ["failed to parse Go version " ++ quoteStr bi.GoVersion ++ ": " ++ e]
  | .ok goVersion =>
    validateCgoEnabled bi ++ validateCgoInit ei ++ validateGoSymbols ei goVersion ++
      validateGoTagsAndExperiment bi

/-- The distinct terminal outcomes of ValidateBinary: the four printed
skip messages, a failure with its reason list, or success. -/
inductive BinaryOutcome where
  | shellScriptSkip
  | readErrorSkip (msg : String)
  | notElfSkip
  | noCryptoSkip
  | failed (reasons : List String)
  | passed
deriving DecidableEq

/-- The boolean actually returned by the Go ValidateBinary: every skip is
"considered success"; only a nonempty reason list returns false. -/
def BinaryOutcome.toBool : BinaryOutcome → Bool
  | .failed _ => false
  | _ => true

/-- ValidateBinary (openssl.go), with the two file reads passed in as
their results: elfinfo.ReadFile on the left, buildinfo.ReadFile on the
right.  A read error whose message carries the shebang bad-magic prefix
prints the shell-script skip, any other read error prints the generic
read-error skip; both return true in the Go code. -/
def ValidateBinary (readRes : Except String ElfInfo) (buildRes : Except String BuildInfo) :
    BinaryOutcome :=
  match readRes with
  | .error e =>
    if hasPre badMagicScriptPre e then .shellScriptSkip else .readErrorSkip e
  | .ok ei =>
    if !ei.IsElf then .notElfSkip
    else if !usesCrypto ei then .noCryptoSkip
    else
      let errs := validateNotStaticallyLinked ei ++
        (match buildRes with
         | .error _ => []
         | .ok bi => goBuildChecks ei bi)
      if errs.isEmpty then .passed else .failed errs

/- ---------------------------------------------------------------------
   ValidateOpenSSL / findCryptoLibs (openssl.go): the library scan.
--------------------------------------------------------------------- -/

/-- A directory entry as seen by os.ReadDir: name plus the type bits the
scan inspects. -/
structure DirEnt where
  name : String
  isDir : Bool
  isRegular : Bool
deriving DecidableEq

/-- The state of one conventional library directory as probed by
findCryptoLibs: Lstat failure, a symlinked directory, a ReadDir failure,
or a successful listing. -/
inductive DirState where
  | statError
  | symlink
  | readDirError
  | entries (es : List DirEnt)
deriving DecidableEq

/-- libPaths (openssl.go). -/
def libPaths : List String := ["/lib64", "/usr/lib64", "/lib", "/usr/lib"]

/-- Does a ".so" occur here, followed by the end of the name or a dot:
the tail of the libcrypto shared-object name pattern. -/
def soAt : List Char → Bool
  | '.' :: 's' :: 'o' :: rest =>
    match rest with
    | [] => true
    | '.' :: _ => true
    | _ => false
  | _ => false

/-- cryptoLibRegex (openssl.go): the name starts with "libcrypto" and
somewhere after that carries ".so" followed by the end of the name or a
version suffix beginning with a dot. -/
def cryptoLibRegexMatch (nm : String) : Bool :=
  let cs := nm.toList
  "libcrypto".toList.isPrefixOf cs &&
    (List.range (cs.length + 1)).any (fun i => soAt ((cs.drop 9).drop i))

/-- The per-directory body of findCryptoLibs: a failed Lstat, a symlinked
directory or a failed ReadDir contributes nothing; a listing contributes
the regular non-directory entries whose names match the pattern, joined
under the library path. -/
def cryptoLibsInDir (libPath : String) (d : DirState) : List String :=
  match d with
  | .entries es =>
    (es.filter (fun e => !e.isDir && e.isRegular && cryptoLibRegexMatch e.name)).map
      (fun e => libPath ++ "/" ++ e.name)
  | _ => []

/-- findCryptoLibs (openssl.go), over the probed state of the four
conventional directories. -/
def findCryptoLibs (fs : String → DirState) : List String :=
  libPaths.flatMap (fun p => cryptoLibsInDir p (fs p))

/-- The result of one nm invocation through the executor collaborator:
captured output, exit code, and the start-failure error if any. -/
structure ExecResult where
  stdout : String
  stderr : String
  rc : Int
  err : Option String
deriving DecidableEq

/-- The three FIPS-mode indicator symbols looked for in the nm output of
a candidate library (ValidateOpenSSL). -/
def hasFIPSSyms (out : String) : Bool :=
  containsSub out "FIPS_mode" || containsSub out "fips_mode" ||
    containsSub out "EVP_default_properties_is_fips_enabled"

/-- The per-library loop body of ValidateOpenSSL: a start failure or a
nonzero exit contributes that error, a missing indicator contributes the
not-FIPS-capable reason, and a found indicator contributes nothing. -/
def libCheckErrs (nmRun : String → ExecResult) (lib : String) : List String :=
  let r := nmRun lib
  match r.err with
  | some e => [e]
  | none =>
    if r.rc ≠ 0 then [r.stderr]
    else if hasFIPSSyms r.stdout then []
    else [lib ++ " is not FIPS-capable"]

/-- The reason list accumulated by ValidateOpenSSL: the not-found reason
when no library matched, otherwise the concatenated per-library errors. -/
def validateOpenSSLErrs (fs : String → DirState) (nmRun : String → ExecResult) : List String :=
  let cryptoLibs := findCryptoLibs fs
  if cryptoLibs.isEmpty then ["libcrypto not found (missing package openssl-libs?)"]
  else cryptoLibs.flatMap (libCheckErrs nmRun)

/-- ValidateOpenSSL (openssl.go): true exactly when no error was
accumulated. -/
def ValidateOpenSSL (fs : String → DirState) (nmRun : String → ExecResult) : Bool :=
  (validateOpenSSLErrs fs nmRun).isEmpty

/- ---------------------------------------------------------------------
   Helper lemmas on the symbol scans.
--------------------------------------------------------------------- -/

/-- A symbol caught by the reserved-range-or-length guard contributes
nothing to any scan loop. -/
theorem ownedHit_eq_false (sections : List String) (g : ElfSymbol → String → Bool)
    (s : ElfSymbol) (h : SHN_LORESERVE ≤ s.Section ∨ sections.length ≤ s.Section) :
    ownedHit sections g s = false := by
  unfold ownedHit sectionLookup
  rw [if_pos h]

/-- Filtering out elements on which the scanned predicate is false does
not change an existential scan. -/
theorem any_filter_eq {α : Type} (l : List α) (f p : α → Bool)
    (h : ∀ s, p s = false → f s = false) :
    (l.filter p).any f = l.any f := by
  induction l with
  | nil => rfl
  | cons a t ih =>
    cases hp : p a with
    | false => simp [List.filter_cons, hp, List.any_cons, h a hp, ih]
    | true => simp [List.filter_cons, hp, List.any_cons, ih]

/-- Dropping symbols that the guard skips anyway leaves every symbol scan
unchanged. -/
theorem symAny_filter (info : ElfInfo) (g : ElfSymbol → String → Bool) (p : ElfSymbol → Bool)
    (hp : ∀ s, p s = false → SHN_LORESERVE ≤ s.Section ∨ info.Sections.length ≤ s.Section) :
    symAny { info with Symbols := info.Symbols.filter p } g = symAny info g := by
  unfold symAny
  exact any_filter_eq _ _ _ (fun s hs => ownedHit_eq_false _ _ _ (hp s hs))

/-- Remove the symbols whose section index lies in the reserved range
starting at SHN_LORESERVE. -/
def dropReservedRange (info : ElfInfo) : ElfInfo :=
  { info with Symbols := info.Symbols.filter (fun s => decide (s.Section < SHN_LORESERVE)) }

/-- Remove the symbols the guard treats as having no owning section:
reserved range or index beyond the section table. -/
def dropUnownedSymbols (info : ElfInfo) : ElfInfo :=
  { info with Symbols := info.Symbols.filter (fun s =>
      decide (s.Section < SHN_LORESERVE) && decide (s.Section < info.Sections.length)) }

theorem symAny_dropReserved (info : ElfInfo) (g : ElfSymbol → String → Bool) :
    symAny (dropReservedRange info) g = symAny info g := by
  unfold dropReservedRange
  exact symAny_filter info g _ (fun s hs => Or.inl (Nat.le_of_not_lt (of_decide_eq_false hs)))

theorem symAny_dropUnowned (info : ElfInfo) (g : ElfSymbol → String → Bool) :
    symAny (dropUnownedSymbols info) g = symAny info g := by
  unfold dropUnownedSymbols
  refine symAny_filter info g _ (fun s hs => ?_)
  by_cases hA : s.Section < SHN_LORESERVE
  · right
    have hB : decide (s.Section < info.Sections.length) = false := by
      cases hBc : decide (s.Section < info.Sections.length) with
      | false => rfl
      | true => rw [decide_eq_true hA, hBc] at hs; exact absurd hs (by simp)
    exact Nat.le_of_not_lt (of_decide_eq_false hB)
  · exact Or.inl (Nat.le_of_not_lt hA)

theorem usesCrypto_dropReserved (info : ElfInfo) :
    usesCrypto (dropReservedRange info) = usesCrypto info := by
  unfold usesCrypto
  exact symAny_dropReserved info cryptoHitBody

theorem validateCgoInit_dropReserved (info : ElfInfo) :
    validateCgoInit (dropReservedRange info) = validateCgoInit info := by
  simp only [validateCgoInit, symAny_dropReserved]

theorem validateGoSymbols_dropReserved (info : ElfInfo) (v : SemVersion) :
    validateGoSymbols (dropReservedRange info) v = validateGoSymbols info v := by
  simp only [validateGoSymbols, symAny_dropReserved]

theorem usesCrypto_dropUnowned (info : ElfInfo) :
    usesCrypto (dropUnownedSymbols info) = usesCrypto info := by
  unfold usesCrypto
  exact symAny_dropUnowned info cryptoHitBody

theorem validateCgoInit_dropUnowned (info : ElfInfo) :
    validateCgoInit (dropUnownedSymbols info) = validateCgoInit info := by
  simp only [validateCgoInit, symAny_dropUnowned]

theorem validateGoSymbols_dropUnowned (info : ElfInfo) (v : SemVersion) :
    validateGoSymbols (dropUnownedSymbols info) v = validateGoSymbols info v := by
  simp only [validateGoSymbols, symAny_dropUnowned]

/- ---------------------------------------------------------------------
   Claim theorems.
--------------------------------------------------------------------- -/

/-- C1 counterexample: a transient read error (here a permission-denied
open failure, which does not carry the shebang bad-magic prefix) makes
ValidateBinary take the generic read-error skip branch and return true,
the very same boolean the success outcome returns; the error is therefore
not propagated as an outcome distinct from success. -/
theorem claim_C1_counterexample :
    ValidateBinary (.error "open bin/app: permission denied") (.error "not a Go binary") =
      .readErrorSkip "open bin/app: permission denied" ∧
    (ValidateBinary (.error "open bin/app: permission denied")
      (.error "not a Go binary")).toBool = true ∧
    BinaryOutcome.passed.toBool = true := by decide

/-- C1 amended: every elfinfo.ReadFile error results in a skip outcome —
the shell-script skip when the message has the shebang bad-magic prefix,
the generic read-error skip otherwise — and both map to the boolean true,
so a read error is never reported as a compliance failure and is
indistinguishable from success in the returned value. -/
theorem claim_C1_amended (e : String) (b : Except String BuildInfo) :
    ValidateBinary (.error e) b =
      (if hasPre badMagicScriptPre e then BinaryOutcome.shellScriptSkip
       else BinaryOutcome.readErrorSkip e) ∧
    (ValidateBinary (.error e) b).toBool = true := by
  refine ⟨rfl, ?_⟩
  show (if hasPre badMagicScriptPre e then BinaryOutcome.shellScriptSkip
       else BinaryOutcome.readErrorSkip e).toBool = true
  by_cases h : hasPre badMagicScriptPre e = true
  · rw [if_pos h]
    rfl
  · rw [if_neg h]
    rfl

/-- A recognized image holding one crypto-named symbol whose section
index is SHN_UNDEF = 0, with the conventional empty name at section
index 0. -/
def undefCryptoInfo : ElfInfo :=
  { IsElf := true, IsStatic := false, Sections := [""],
    Symbols := [{ Name := "crypto_undef_ref", Section := 0 }] }

/-- Is the section index one of the three named special values: undefined
(SHN_UNDEF = 0), absolute (SHN_ABS = 0xfff1), common (SHN_COMMON =
0xfff2). -/
def specialAbsCommonUndef (s : ElfSymbol) : Bool :=
  s.Section == 0 || s.Section == 0xfff1 || s.Section == 0xfff2

/-- C2 counterexample: a symbol with the undefined special index 0 is NOT
excluded from correlation — it is correlated to the index-0 section name
and trips the crypto-usage gate, so removing the absolute/common/undefined
symbols changes the result of usesCrypto. -/
theorem claim_C2_counterexample :
    usesCrypto undefCryptoInfo = true ∧
    usesCrypto { undefCryptoInfo with
      Symbols := undefCryptoInfo.Symbols.filter (fun s => !specialAbsCommonUndef s) } = false ∧
    ¬ (usesCrypto { undefCryptoInfo with
      Symbols := undefCryptoInfo.Symbols.filter (fun s => !specialAbsCommonUndef s) } =
        usesCrypto undefCryptoInfo) := by decide

/-- C2 amended: exactly the symbols whose section index is at least
SHN_LORESERVE — which covers absolute and common, but not undefined — are
excluded from symbol-to-section correlation: removing them leaves the
crypto-usage gate, the cgo-init check and the required-symbol check
unchanged.  Undefined-index symbols are instead correlated to the index-0
section name. -/
theorem claim_C2_amended (info : ElfInfo) (v : SemVersion) :
    usesCrypto (dropReservedRange info) = usesCrypto info ∧
    validateCgoInit (dropReservedRange info) = validateCgoInit info ∧
    validateGoSymbols (dropReservedRange info) v = validateGoSymbols info v :=
  ⟨usesCrypto_dropReserved info, validateCgoInit_dropReserved info,
    validateGoSymbols_dropReserved info v⟩

/-- C3: the symbol-to-section lookup short-circuits to none for every
symbol whose section index is in the reserved range or at least the
length of the section table; whenever it does index, the index is in
bounds; and the symbols it short-circuits on are excluded from all three
section-name-dependent checks. -/
theorem claim_C3 (info : ElfInfo) (sym : ElfSymbol) (v : SemVersion) :
    (SHN_LORESERVE ≤ sym.Section ∨ info.Sections.length ≤ sym.Section →
      sectionLookup info.Sections sym = none) ∧
    (sectionLookup info.Sections sym = none ∨
      ∃ h : sym.Section < info.Sections.length,
        sectionLookup info.Sections sym = some (info.Sections.get ⟨sym.Section, h⟩)) ∧
    usesCrypto (dropUnownedSymbols info) = usesCrypto info ∧
    validateCgoInit (dropUnownedSymbols info) = validateCgoInit info ∧
    validateGoSymbols (dropUnownedSymbols info) v = validateGoSymbols info v := by
  refine ⟨fun h => ?_, ?_, usesCrypto_dropUnowned info,
    validateCgoInit_dropUnowned info, validateGoSymbols_dropUnowned info v⟩
  · unfold sectionLookup
    rw [if_pos h]
  · by_cases h : SHN_LORESERVE ≤ sym.Section ∨ info.Sections.length ≤ sym.Section
    · left
      unfold sectionLookup
      rw [if_pos h]
    · right
      have h2 : sym.Section < info.Sections.length := by
        push_neg at h
        exact h.2
      refine ⟨h2, ?_⟩
      unfold sectionLookup
      rw [if_neg h]
      exact List.get?_eq_get h2

/-- A recognized image with one crypto-named symbol at the absolute
special index. -/
def absSymInfo : ElfInfo :=
  { IsElf := true, IsStatic := false, Sections := [""],
    Symbols := [{ Name := "crypto_abs", Section := 0xfff1 }] }

/-- C3 witness at concrete inputs: the lookup on an absolute-index symbol
short-circuits and the crypto gate ignores such symbols. -/
theorem claim_C3_witness :
    sectionLookup absSymInfo.Sections { Name := "crypto_abs", Section := 0xfff1 } = none ∧
    usesCrypto (dropUnownedSymbols absSymInfo) = usesCrypto absSymInfo := by
  have h := claim_C3 absSymInfo { Name := "crypto_abs", Section := 0xfff1 }
    { major := 1, minor := 23, patch := 0, pre := "", md := "" }
  exact ⟨h.1 (Or.inl (by decide)), h.2.2.1⟩

/-- A crypto-using recognized dynamically linked image used in the C4
scenario. -/
def c4Elf : ElfInfo :=
  { IsElf := true, IsStatic := false, Sections := ["", ".text"],
    Symbols := [{ Name := "crypto/tls.init", Section := 1 }] }

/-- Build metadata whose toolchain version does not parse as a semantic
version, with a forbidden build tag and an experiment setting lacking the
required token — both of which checks 4e and 4f would flag. -/
def c4Build : BuildInfo :=
  { GoVersion := "go1.21rc1",
    Settings := [{ Key := "-tags", Value := "no_openssl" },
                 { Key := "GOEXPERIMENT", Value := "" }] }

/-- C4 counterexample: when the runtime version fails to parse, the Go
branch produces only the parse-failure reason — the build-tags check and
the experiment-flags check are skipped as well, so their reasons are
absent even though their violations are present. -/
theorem claim_C4_counterexample :
    goBuildChecks c4Elf c4Build =
      ["failed to parse Go version \"go1.21rc1\": Invalid Semantic Version"] ∧
    ¬ ("uses forbidden build tag no_openssl" ∈ goBuildChecks c4Elf c4Build) ∧
    ¬ (("missing required GOEXPERIMENT value " ++ sqc ++ "strictfipsruntime" ++ sqc) ∈
        goBuildChecks c4Elf c4Build) := by decide

/-- C4 amended: a runtime version string that fails semantic-version
parsing makes the Go branch return exactly the one parse-failure reason,
skipping checks 4b through 4f — the cgo-enabled, cgo-init,
required-symbol, build-tags and experiment-flags checks alike. -/
theorem claim_C4_amended (ei : ElfInfo) (bi : BuildInfo) (e : String)
    (h : newVersion (cutSpace (trimGoPre bi.GoVersion)) = .error e) :
    goBuildChecks ei bi =
      ["failed to parse Go version " ++ quoteStr bi.GoVersion ++ ": " ++ e] := by
  unfold goBuildChecks
  rw [h]

/-- C4 amended witness at the concrete unparseable version. -/
theorem claim_C4_amended_witness :
    goBuildChecks c4Elf c4Build =
      ["failed to parse Go version " ++ quoteStr c4Build.GoVersion ++ ": " ++
        "Invalid Semantic Version"] :=
  claim_C4_amended c4Elf c4Build "Invalid Semantic Version" rfl

/-- Build metadata with no GOEXPERIMENT setting at all. -/
def c5Build : BuildInfo :=
  { GoVersion := "go1.23.0",
    Settings := [{ Key := "CGO_ENABLED", Value := "1" }, { Key := "-tags", Value := "foo" }] }

/-- C5 evaluation at the failing input: the settings list carries no
GOEXPERIMENT key, and validateGoTagsAndExperiment adds no reason — the
experiment check silently passes when the setting is wholly absent. -/
theorem claim_C5_code_eval :
    validateGoTagsAndExperiment c5Build = [] ∧
    c5Build.Settings.all (fun bs => bs.Key != "GOEXPERIMENT") = true := by decide

/-- The C6 scenario image: crypto-using, dynamically linked, with the
cgo-init symbol present in a non-bss section and without the versioned
required symbol. -/
def c6Elf : ElfInfo :=
  { IsElf := true, IsStatic := false, Sections := ["", ".text", ".bss"],
    Symbols := [{ Name := "crypto/tls.init", Section := 1 },
                { Name := "_cgo_init", Section := 1 }] }

/-- The C6 scenario metadata: runtime version 1.23.0, CGO_ENABLED=0, the
forbidden tag present, the required experiment token present. -/
def c6Build : BuildInfo :=
  { GoVersion := "go1.23.0",
    Settings := [{ Key := "CGO_ENABLED", Value := "0" },
                 { Key := "-tags", Value := "foo,no_openssl" },
                 { Key := "GOEXPERIMENT", Value := "strictfipsruntime" }] }

/-- C6: on the three-violation scenario — cgo disabled, forbidden tag,
missing required symbol — evaluation fails with exactly the three
corresponding reasons, one each, in check order. -/
theorem claim_C6 :
    ValidateBinary (.ok c6Elf) (.ok c6Build) = .failed
      ["not compiled with CGO_ENABLED=1",
       "missing required symbol \"vendor/github.com/golang-fips/openssl/v2.dlopen\"",
       "uses forbidden build tag no_openssl"] ∧
    (goBuildChecks c6Elf c6Build).length = 3 := by decide

/-- C7: a recognized image in which no crypto-named symbol is owned by a
section outside the zero-initialized-data denylist is skipped by the
crypto-usage gate: ValidateBinary returns the no-crypto skip, which is
success, whatever the link type or build metadata. -/
theorem claim_C7 (ei : ElfInfo) (b : Except String BuildInfo)
    (helf : ei.IsElf = true) (hnc : usesCrypto ei = false) :
    ValidateBinary (.ok ei) b = .noCryptoSkip ∧
    (ValidateBinary (.ok ei) b).toBool = true := by
  constructor
  · simp [ValidateBinary, helf, hnc]
  · simp [ValidateBinary, helf, hnc, BinaryOutcome.toBool]

/-- A statically linked image whose only crypto-named symbol lives in
.bss. -/
def bssOnlyCryptoElf : ElfInfo :=
  { IsElf := true, IsStatic := true, Sections := ["", ".bss"],
    Symbols := [{ Name := "crypto_state", Section := 1 }] }

/-- Build metadata violating several rules, to show the C7 exemption does
not depend on it. -/
def c7Build : BuildInfo :=
  { GoVersion := "go1.10", Settings := [{ Key := "-tags", Value := "no_openssl" }] }

/-- C7 witness: the static binary with crypto symbols only in .bss and
rule-violating metadata is still skipped as non-crypto. -/
theorem claim_C7_witness :
    ValidateBinary (.ok bssOnlyCryptoElf) (.ok c7Build) = .noCryptoSkip ∧
    (ValidateBinary (.ok bssOnlyCryptoElf) (.ok c7Build)).toBool = true :=
  claim_C7 bssOnlyCryptoElf (.ok c7Build) (by decide) (by decide)

/-- C8: when the parsed runtime version matches no entry of the versioned
requirement table, validateGoSymbols reports exactly the single
unsupported-version reason and performs no per-symbol presence check: no
missing-symbol reason can appear. -/
theorem claim_C8 (info : ElfInfo) (v : SemVersion)
    (h : ∀ req ∈ requiredSymbolsForGoVersions, req.fst v = false) :
    validateGoSymbols info v =
      ["uses Go version " ++ v.render ++ ", which is not yet supported by fips-validator"] := by
  have hf : requiredSymbolsForGoVersions.find? (fun req => req.fst v) = none := by
    rw [List.find?_eq_none]
    intro x hx
    simp [h x hx]
  simp [validateGoSymbols, hf]

/-- A Go version below every constraint of the table. -/
def v122 : SemVersion := { major := 1, minor := 22, patch := 0, pre := "", md := "" }

/-- A crypto-using image with an empty symbol table relative to the
required symbols. -/
def c8Elf : ElfInfo :=
  { IsElf := true, IsStatic := false, Sections := [""], Symbols := [] }

/-- C8 witness at version 1.22.0, which no table entry covers. -/
theorem claim_C8_witness :
    validateGoSymbols c8Elf v122 =
      ["uses Go version " ++ v122.render ++ ", which is not yet supported by fips-validator"] :=
  claim_C8 c8Elf v122 (by decide)

/-- A flatMap in which every element produces one element is a map. -/
theorem flatMap_singletons {α β : Type} (l : List α) (g : α → List β) (f : α → β)
    (h : ∀ a ∈ l, g a = [f a]) : l.flatMap g = l.map f := by
  induction l with
  | nil => rfl
  | cons a t ih =>
    rw [List.flatMap_cons, h a (by simp), List.map_cons,
      ih (fun x hx => h x (by simp [hx]))]
    rfl

/-- C9: when at least one library matched the naming pattern and every
matched library's nm run succeeds but shows none of the three FIPS
indicator symbols, the scan fails with one not-FIPS-capable reason naming
each library; when no library matched, the scan fails with the single
not-found reason. -/
theorem claim_C9 (fs : String → DirState) (nmRun : String → ExecResult) :
    (findCryptoLibs fs ≠ [] →
      (∀ lib ∈ findCryptoLibs fs, (nmRun lib).err = none ∧ (nmRun lib).rc = 0 ∧
        hasFIPSSyms (nmRun lib).stdout = false) →
      validateOpenSSLErrs fs nmRun =
        (findCryptoLibs fs).map (fun lib => lib ++ " is not FIPS-capable") ∧
      ValidateOpenSSL fs nmRun = false) ∧
    (findCryptoLibs fs = [] →
      validateOpenSSLErrs fs nmRun = ["libcrypto not found (missing package openssl-libs?)"] ∧
      ValidateOpenSSL fs nmRun = false) := by
  constructor
  · intro hne hall
    have hsing : ∀ lib ∈ findCryptoLibs fs,
        libCheckErrs nmRun lib = [lib ++ " is not FIPS-capable"] := by
      intro lib hmem
      obtain ⟨h1, h2, h3⟩ := hall lib hmem
      simp [libCheckErrs, h1, h2, h3]
    have hmap := flatMap_singletons (findCryptoLibs fs) (libCheckErrs nmRun)
      (fun lib => lib ++ " is not FIPS-capable") hsing
    have hie : (findCryptoLibs fs).isEmpty = false := by
      cases hc : findCryptoLibs fs with
      | nil => exact absurd hc hne
      | cons a t => rfl
    have herr : validateOpenSSLErrs fs nmRun =
        (findCryptoLibs fs).map (fun lib => lib ++ " is not FIPS-capable") := by
      simp only [validateOpenSSLErrs, hie, Bool.false_eq_true, if_false]
      exact hmap
    refine ⟨herr, ?_⟩
    unfold ValidateOpenSSL
    rw [herr]
    cases hc : findCryptoLibs fs with
    | nil => exact absurd hc hne
    | cons a t => rfl
  · intro hnil
    have hie : (findCryptoLibs fs).isEmpty = true := by rw [hnil]; rfl
    constructor
    · simp only [validateOpenSSLErrs, hie, if_true]
    · unfold ValidateOpenSSL
      simp only [validateOpenSSLErrs, hie, if_true]
      rfl

/-- A root whose /lib64 holds one regular file matching the libcrypto
pattern. -/
def fsW : String → DirState := fun p =>
  if p == "/lib64" then .entries [{ name := "libcrypto.so.3", isDir := false, isRegular := true }]
  else .statError

/-- An nm run that succeeds but lists no FIPS indicator symbol. -/
def nmW : String → ExecResult := fun _ =>
  { stdout := "0000000000000000 T OPENSSL_init", stderr := "", rc := 0, err := none }

/-- A root in which every conventional library directory fails Lstat. -/
def fsE : String → DirState := fun _ => .statError

/-- C9 witness: the single matched non-FIPS-capable library is named in
the failure, and the empty root yields the not-found failure. -/
theorem claim_C9_witness :
    (validateOpenSSLErrs fsW nmW = ["/lib64/libcrypto.so.3 is not FIPS-capable"] ∧
      ValidateOpenSSL fsW nmW = false) ∧
    (validateOpenSSLErrs fsE nmW = ["libcrypto not found (missing package openssl-libs?)"] ∧
      ValidateOpenSSL fsE nmW = false) := by
  constructor
  · have h := (claim_C9 fsW nmW).1 (by decide) (by decide)
    exact ⟨h.1.trans (by decide), h.2⟩
  · exact (claim_C9 fsE nmW).2 (by decide)

/-- A flatMap in which every element produces nothing is empty. -/
theorem flatMap_nil_of_all {α β : Type} (l : List α) (g : α → List β)
    (h : ∀ a ∈ l, g a = []) : l.flatMap g = [] := by
  induction l with
  | nil => rfl
  | cons a t ih =>
    rw [List.flatMap_cons, h a (by simp), ih (fun x hx => h x (by simp [hx]))]
    rfl

/-- C10: a conventional library directory that fails Lstat, is a symlink,
or fails ReadDir contributes no candidates; a root in which all four
conventional directories are in such a state yields the library-not-found
compliance failure, not an environment error. -/
theorem claim_C10 (fs : String → DirState) (nmRun : String → ExecResult) :
    (∀ (p : String) (d : DirState),
      d = .statError ∨ d = .symlink ∨ d = .readDirError → cryptoLibsInDir p d = []) ∧
    ((∀ p ∈ libPaths, fs p = .statError ∨ fs p = .symlink ∨ fs p = .readDirError) →
      findCryptoLibs fs = [] ∧
      validateOpenSSLErrs fs nmRun = ["libcrypto not found (missing package openssl-libs?)"] ∧
      ValidateOpenSSL fs nmRun = false) := by
  constructor
  · rintro p d (rfl | rfl | rfl) <;> rfl
  · intro hall
    have hnil : findCryptoLibs fs = [] := by
      unfold findCryptoLibs
      refine flatMap_nil_of_all _ _ (fun p hp => ?_)
      rcases hall p hp with h | h | h <;> rw [h] <;> rfl
    have hie : (findCryptoLibs fs).isEmpty = true := by rw [hnil]; rfl
    refine ⟨hnil, ?_, ?_⟩
    · simp only [validateOpenSSLErrs, hie, if_true]
    · unfold ValidateOpenSSL
      simp only [validateOpenSSLErrs, hie, if_true]
      rfl

/-- A root with all four conventional directories unusable in three
different ways. -/
def fsMixed : String → DirState := fun p =>
  if p == "/usr/lib64" then .symlink
  else if p == "/lib" then .readDirError
  else .statError

/-- An nm run result, unused on roots with no matched library. -/
def nmX : String → ExecResult := fun _ =>
  { stdout := "", stderr := "", rc := 0, err := none }

/-- C10 witness: a symlinked directory contributes nothing, and the
all-unusable root reports the not-found compliance failure. -/
theorem claim_C10_witness :
    cryptoLibsInDir "/lib64" DirState.symlink = [] ∧
    (findCryptoLibs fsMixed = [] ∧
      validateOpenSSLErrs fsMixed nmX = ["libcrypto not found (missing package openssl-libs?)"] ∧
      ValidateOpenSSL fsMixed nmX = false) := by
  have h := claim_C10 fsMixed nmX
  exact ⟨h.1 "/lib64" DirState.symlink (Or.inr (Or.inl rfl)), h.2 (by decide)⟩
